import Mathlib

/-!
Verification of the plakar proxmox integration.

This file gives a shallow embedding, in Lean, of the core of the
repository: the vzdump filename codec (`internal/proxmox/dumpname.go`),
the metadata sidecar filename codec (`internal/proxmox/metadata.go`),
the backup stream capture with its compression sniffing and its
finalization state machine (`internal/proxmox` backup streaming file),
the remote read/write close paths (`internal/proxmox/runner.go`), and
the restore correlation loop of `exporter/exporter.go`.

Byte streams are modelled as `List Nat`; Go errors are modelled as
structured values carrying the pieces of text the code interpolates;
client side effects (running commands, writing/removing staged files)
are modelled by a behaviour record of pure functions plus an explicit
action trace.
-/

deriving instance DecidableEq for Except

namespace PlakarProxmox

/-! ## Small helpers: digits, path base, substring search -/

/-- Largest value of a signed 64-bit integer, the overflow bound of
Go's `strconv.Atoi` on a 64-bit platform. -/
def maxInt64 : Nat := 9223372036854775807

def natDigitChar (n : Nat) : Char := Char.ofNat (48 + n)

/-- Decimal digits, most significant first, with explicit fuel so the
definition is structurally recursive (and hence kernel-computable). -/
def digitsOfAux (fuel n : Nat) : List Char :=
  match fuel with
  | 0 => []
  | fuel + 1 =>
    if n < 10 then [natDigitChar n]
    else digitsOfAux fuel (n / 10) ++ [natDigitChar (n % 10)]

/-- Decimal digits of a natural number, most significant first. -/
def digitsOf (n : Nat) : List Char := digitsOfAux (n + 1) n

/-- Value of a list of decimal digit characters. -/
def digitsVal (cs : List Char) : Nat :=
  cs.foldl (fun a c => a * 10 + (c.toNat - 48)) 0

/-- Model of Go `strconv.Atoi` restricted to all-digit inputs (the only
inputs the callers in this repository hand it: regex digit captures).
`none` models the out-of-range error of `Atoi`. -/
def atoiDigits (cs : List Char) : Option Int :=
  if cs ≠ [] ∧ cs.all Char.isDigit = true then
    if digitsVal cs ≤ maxInt64 then some (digitsVal cs) else none
  else none

/-- Model of Go `strconv.Itoa`. -/
def itoa (n : Int) : String :=
  if n < 0 then ⟨'-' :: digitsOf n.natAbs⟩ else ⟨digitsOf n.toNat⟩

/-- Model of Go `path.Base` (also `filepath.Base` on slash paths):
empty input gives ".", all-slash input gives "/", otherwise the part
after the last slash once trailing slashes are removed. -/
def pathBase (p : String) : String :=
  if p = "" then "." else
    let cs := (p.data.reverse.dropWhile (fun c => c = '/')).reverse
    if cs = [] then "/" else
      ⟨(cs.reverse.takeWhile (fun c => c ≠ '/')).reverse⟩

/-- Model of Go `path.Join` for the two-argument call in the exporter.
`path.Clean` is not modelled: the exporter treats the joined staging
path opaquely, passing it unchanged to the client. -/
def pathJoin (dir name : String) : String :=
  if dir = "" then name else dir ++ "/" ++ name

/-- Model of Go `strings.TrimSpace`: drop leading and trailing
whitespace characters. -/
def trimSpace (s : String) : String :=
  ⟨((s.data.dropWhile Char.isWhitespace).reverse.dropWhile Char.isWhitespace).reverse⟩

/-- Model of Go `strings.ToLower`: lower-case each character. -/
def toLowerStr (s : String) : String := ⟨s.data.map Char.toLower⟩

/-- Model of Go `strings.Contains`. -/
def containsSub (hay needle : String) : Bool :=
  (List.range (hay.data.length + 1)).any
    (fun i => needle.data.isPrefixOf (hay.data.drop i))

/-! ## Dump name codec (`internal/proxmox/dumpname.go`) -/

/-- Strip an expected literal from the front of a character list;
`none` when the literal is not there. -/
def stripLit : List Char → List Char → Option (List Char)
  | [], cs => some cs
  | _ :: _, [] => none
  | l :: ls, c :: cs => if c = l then stripLit ls cs else none

/-- Longest nonempty run of leading decimal digits, with the rest;
`none` when there is no leading digit (the `\d+` of the regex). -/
def span1Digits (cs : List Char) : Option (List Char × List Char) :=
  if cs.takeWhile Char.isDigit = [] then none
  else some (cs.takeWhile Char.isDigit, cs.dropWhile Char.isDigit)

/-- The `(qemu|lxc)` alternation of the dump name regex. -/
def matchKind (cs : List Char) : Option (String × List Char) :=
  match stripLit ("qemu".data) cs with
  | some rest => some ("qemu", rest)
  | none =>
    match stripLit ("lxc".data) cs with
    | some rest => some ("lxc", rest)
    | none => none

/-- The `-(qemu|lxc)-(\d+)-` tail of the dump name regex: returns the
kind and the vmid digit capture. -/
def matchTail (cs : List Char) : Option (String × List Char) :=
  match cs with
  | '-' :: cs1 =>
    match matchKind cs1 with
    | some (kind, cs2) =>
      match cs2 with
      | '-' :: cs3 =>
        match span1Digits cs3 with
        | some (idd, cs4) =>
          match cs4 with
          | '-' :: _ => some (kind, idd)
          | _ => none
        | none => none
      | _ => none
    | none => none
  | _ => none

/-- Deterministic match of `^vzdump(?:-v(\d+))?-(qemu|lxc)-(\d+)-`.
The optional version group and the plain form cannot both apply (the
group needs `-v<digit>` where the plain form needs `-q`/`-l`), so the
regex backtracking collapses to this case split. Returns the version
digit capture (when present), the kind, and the vmid digit capture. -/
def matchDumpName (cs : List Char) : Option (Option (List Char) × String × List Char) :=
  match stripLit ("vzdump".data) cs with
  | none => none
  | some rest =>
    match rest with
    | '-' :: 'v' :: c :: csv =>
      if c.isDigit then
        match span1Digits (c :: csv) with
        | some (vd, rem) =>
          match matchTail rem with
          | some (kind, idd) => some (some vd, kind, idd)
          | none => none
        | none => none
      else
        match matchTail rest with
        | some (kind, idd) => some (none, kind, idd)
        | none => none
    | _ =>
      match matchTail rest with
      | some (kind, idd) => some (none, kind, idd)
      | none => none

/-- The error cases of `ParseDumpFilename`, one per `fmt.Errorf`. -/
inductive DumpNameErr where
  | invalidName (base : String)
  | invalidVersion (base : String)
  | unsupportedVersion (version : Int)
  | invalidVMID (base : String)
deriving DecidableEq

def DumpFilenameVersion : Int := 1

/-- `ParseDumpFilename` of `dumpname.go`: base of the path, regex
match, version-tag check against the supported version, vmid parse. -/
def parseDumpFilename (name : String) : Except DumpNameErr (String × Int) :=
  let base := pathBase name
  match matchDumpName base.data with
  | none => .error (.invalidName base)
  | some (verOpt, kind, idDigits) =>
    let idPart : Except DumpNameErr (String × Int) :=
      match atoiDigits idDigits with
      | none => .error (.invalidVMID base)
      | some vmid => .ok (kind, vmid)
    match verOpt with
    | some vd =>
      match atoiDigits vd with
      | none => .error (.invalidVersion base)
      | some v =>
        if v ≠ DumpFilenameVersion then .error (.unsupportedVersion v) else idPart
    | none => idPart

/-- `BuildDumpFilename` of `dumpname.go` (the `*Config` argument of the
Go function is ignored by it and dropped here). -/
def buildDumpFilename (vmType : String) (vmid : Int)
    (timestamp baseExt compressionSuffix : String) : String :=
  "vzdump-" ++ vmType ++ "-" ++ itoa vmid ++ "-" ++ timestamp ++ "." ++
    baseExt ++ compressionSuffix

/-! ## Metadata sidecar filename codec (`internal/proxmox/metadata.go`) -/

def metaPre : String := ".plakar-meta-"
def metaSuf : String := ".json"

/-- `MetadataFilename`. -/
def metadataFilename (archiveName : String) : String :=
  metaPre ++ archiveName ++ metaSuf

/-- Model of Go `strings.TrimSuffix` on character lists. -/
def dropSufL (l suf : List Char) : List Char :=
  if suf.isSuffixOf l then l.take (l.length - suf.length) else l

/-- `ParseMetadataFilename`: both fixed markers must be present, they
are stripped, and an empty enclosed archive name is rejected. -/
def parseMetadataFilename (name : String) : Option String :=
  let cs := name.data
  if metaPre.data.isPrefixOf cs && metaSuf.data.isSuffixOf cs then
    let an := dropSufL (cs.drop metaPre.data.length) metaSuf.data
    if an = [] then none else some ⟨an⟩
  else none

/-! ## Compression sniffing and stream capture (backup streaming file) -/

def gzMagic : List Nat := [0x1f, 0x8b]
def zstMagic : List Nat := [0x28, 0xb5, 0x2f, 0xfd]
def lzoMagic : List Nat := [0x89, 0x4c, 0x5a, 0x4f, 0x00, 0x0d, 0x0a, 0x1a, 0x0a]

/-- `detectCompressionSuffix`: the Go length-and-index checks for the
gzip and zstd magics and the `bytes.HasPrefix` check for the lzo magic
are all exactly list-prefix tests. -/
def detectCompressionSuffix (header : List Nat) : String :=
  if gzMagic.isPrefixOf header then ".gz"
  else if zstMagic.isPrefixOf header then ".zst"
  else if lzoMagic.isPrefixOf header then ".lzo"
  else ""

/-- `readStreamHeader` over a byte-list stream: `io.ReadFull` either
fills the buffer or stops at end of stream, and the Go code maps both
`io.EOF` and `io.ErrUnexpectedEOF` to a nil error, returning the bytes
collected so far.  On a list-modelled stream (no mid-stream transport
fault) the function therefore never fails and returns the first `size`
bytes. -/
def readStreamHeaderBytes (s : List Nat) (size : Nat) : List Nat :=
  s.take size

/-- Outcome of `BackupVMStream`: an error return (no stream and no
archive name) or the derived archive name with the reconstructed
stream handed to the caller. -/
inductive CaptureResult where
  | failed (msg : String)
  | captured (archive : String) (stream : List Nat)
deriving DecidableEq

/-- `dumpBaseExtension`. -/
def dumpBaseExtension (vmType : String) : Except String String :=
  if vmType = "qemu" then .ok "vma"
  else if vmType = "lxc" then .ok "tar"
  else .error ("unsupported VM type: " ++ vmType)

/-- The header phase of `BackupVMStream`: read a 16-byte header, fail
on an empty header with the drained diagnostic text, otherwise classify
compression, build the canonical name, and re-prepend the header bytes
in front of the remaining stream. -/
def backupVMStream (vmType : String) (vmid : Int) (timestamp : String)
    (stdoutBytes : List Nat) (stderrText : String) : CaptureResult :=
  match dumpBaseExtension vmType with
  | .error e => .failed e
  | .ok baseExt =>
    let header := readStreamHeaderBytes stdoutBytes 16
    if header = [] then
      .failed ("empty vzdump stream header: " ++ trimSpace stderrText)
    else
      let suffix := detectCompressionSuffix header
      let archivePath := buildDumpFilename vmType vmid timestamp baseExt suffix
      .captured archivePath (header ++ stdoutBytes.drop 16)

/-! ## Stream finalization state machine (`streamReadCloser`) -/

/-- Outcome of one `Read` call on the wrapped stream (the model reads
one byte at a time). -/
inductive ReadResult where
  | bytes (b : Nat)
  | eof
  | errored (msg : String)
deriving DecidableEq

/-- State of a `streamReadCloser`: the not-yet-read stdout bytes, the
child's eventual exit outcome and drained diagnostic text, the `closed`
and `finished` flags and the cached `finishErr` of the Go struct, plus
a ghost counter of how many times the finalize body (wait for exit,
join the diagnostic drain) actually ran. -/
structure SRC where
  remaining : List Nat
  finishFails : Bool
  stderrText : String
  closed : Bool
  finished : Bool
  finishErr : Option String
  finishCount : Nat
deriving DecidableEq

def initSRC (stdoutBytes : List Nat) (finishFails : Bool) (stderrText : String) : SRC :=
  { remaining := stdoutBytes, finishFails := finishFails, stderrText := stderrText,
    closed := false, finished := false, finishErr := none, finishCount := 0 }

/-- The error text of `fmt.Errorf("vzdump failed: %w: %s", err, trimmed)`
with the wrapped exit error kept opaque. -/
def vzdumpFinishErr (stderrText : String) : String :=
  "vzdump failed: " ++ trimSpace stderrText

/-- `streamReadCloser.finalize`: return the cached result when already
finished, otherwise run finish, join the drain, and cache. -/
def finalizeSRC (r : SRC) : Option String × SRC :=
  if r.finished then (r.finishErr, r)
  else
    let e := if r.finishFails then some (vzdumpFinishErr r.stderrText) else none
    (e, { r with finished := true, finishCount := r.finishCount + 1, finishErr := e })

/-- `streamReadCloser.Read`: a finalization error observed at EOF takes
priority over the clean EOF. -/
def readSRC (r : SRC) : ReadResult × SRC :=
  match r.remaining with
  | b :: rest => (.bytes b, { r with remaining := rest })
  | [] =>
    let (ferr, r2) := finalizeSRC r
    match ferr with
    | some e => (.errored e, r2)
    | none => (.eof, r2)

/-- `streamReadCloser.Close`. -/
def closeSRC (r : SRC) : Option String × SRC :=
  if r.closed then (none, r)
  else finalizeSRC { r with closed := true }

inductive SEvent where
  | read
  | close
deriving DecidableEq

def srcStep (r : SRC) (e : SEvent) : SRC :=
  match e with
  | .read => (readSRC r).2
  | .close => (closeSRC r).2

def srcRun (r : SRC) (es : List SEvent) : SRC := es.foldl srcStep r

/-! ## Remote read handle close path (`sshReadCloser`) -/

/-- State of an `sshReadCloser`: whether `session.Wait` will fail, the
drained remote stderr, and the `closed` flag. -/
structure SSHRC where
  waitFails : Bool
  stderrText : String
  closed : Bool
deriving DecidableEq

/-- `sshReadCloser.Close`. -/
def closeSSHRC (r : SSHRC) : Option String × SSHRC :=
  if r.closed then (none, r)
  else
    ((if r.waitFails then some ("remote read failed: " ++ trimSpace r.stderrText) else none),
     { r with closed := true })

/-! ## Restore correlation (`exporter/exporter.go`) -/

/-- The fields of the Go `DumpMetadata` record that the exporter's
correlation logic reads (`VMID`, `VMType`, `ArchiveName`); decoding of
the JSON sidecar body is abstracted as each record's decode outcome. -/
structure DumpMetadata where
  vmid : Int
  vmType : String
  archiveName : String
deriving DecidableEq

/-- An inbound record: its pathname, the flags the Export loop checks,
the outcome of `DecodeDumpMetadata` on its reader (used only when the
basename is a sidecar filename), and the outcome of `closeRecord`. -/
structure Rec where
  pathname : String
  hasErr : Bool
  isXattr : Bool
  isRegular : Bool
  decode : Except String DumpMetadata
  closeErr : Option String
deriving DecidableEq

/-- The configuration fields the Export loop reads. -/
structure Cfg where
  restoreVMID : Option Int
  cleanup : Bool
  dumpDir : String
deriving DecidableEq

/-- Structured rendering of the `fmt.Errorf` errors the exporter can
attach to a result, one constructor per error site. -/
inductive ExpErr where
  | decodeFailed (msg : String)
  | metaMismatch (name : String)
  | missingVMID (archive : String)
  | missingVMType (archive : String)
  | writeFailed (msg : String)
  | closeFailed (msg : String)
  | unsupportedType (vmType : String)
  | stopFailed (vmType : String) (vmid : Int) (output : String)
  | restoreFailed (stderr : String)
  | removeFailed (msg : String)
  | missingMetadata (archive : String)
deriving DecidableEq

/-- A client side effect: running a command, staging a dump file,
removing a staged file. -/
inductive Action where
  | runCmd (cmd : String) (args : List String)
  | writeFile (p : String)
  | removeFile (p : String)
deriving DecidableEq

/-- Pure behaviour of the client's effects: command outcomes
(stdout, stderr, success) and write/remove outcomes by path. -/
structure ClientBehavior where
  run : String → List String → String × String × Bool
  writeOk : String → Option String
  removeOk : String → Option String

/-- `validateMetadata`. -/
def validateMetadata (archiveName : String) (meta : DumpMetadata) : Option ExpErr :=
  if meta.archiveName ≠ "" ∧ meta.archiveName ≠ archiveName then
    some (.metaMismatch meta.archiveName)
  else if meta.vmid ≤ 0 then some (.missingVMID archiveName)
  else if meta.vmType ≠ "qemu" ∧ meta.vmType ≠ "lxc" then
    some (.missingVMType archiveName)
  else none

/-- `isIgnorableStopError`. -/
def isIgnorableStopError (output : String) : Bool :=
  if output = "" then false
  else
    let normalized := toLowerStr output
    containsSub normalized ("not running") ||
    containsSub normalized ("already stopped") ||
    containsSub normalized ("does not exist") ||
    containsSub normalized ("no such vm") ||
    containsSub normalized ("no such container") ||
    containsSub normalized ("configuration file")

/-- `stopVM`: run the kind-specific stop command; on failure, take the
trimmed stderr (or stdout when stderr is empty) and swallow the failure
when the text matches the ignorable family. -/
def stopVM (cb : ClientBehavior) (vmType : String) (vmid : Int) :
    Option ExpErr × List Action :=
  let vmidStr := itoa vmid
  match (if vmType = "qemu" then some ("qm")
         else if vmType = "lxc" then some ("pct")
         else none) with
  | none => (some (.unsupportedType vmType), [])
  | some cmd =>
    let out := cb.run cmd [("stop"), vmidStr]
    let acts := [Action.runCmd cmd [("stop"), vmidStr]]
    if out.2.2 then (none, acts)
    else
      let out0 := trimSpace out.2.1
      let output := if out0 = "" then trimSpace out.1 else out0
      if isIgnorableStopError output then (none, acts)
      else (some (.stopFailed vmType vmid output), acts)

/-- `resolveRestoreTarget`. -/
def resolveRestoreTarget (filename : String) (meta : DumpMetadata) :
    Except ExpErr (String × Int) :=
  match validateMetadata filename meta with
  | some e => .error e
  | none => .ok (meta.vmType, meta.vmid)

/-- `restoreDump`: resolve the target from the metadata, stop the
machine, then run the kind-specific restore command with `--force`. -/
def restoreDump (cb : ClientBehavior) (dumpPath filename : String)
    (meta : DumpMetadata) : Option ExpErr × List Action :=
  match resolveRestoreTarget filename meta with
  | .error e => (some e, [])
  | .ok (vmType, vmid) =>
    match stopVM cb vmType vmid with
    | (some e, acts) => (some e, acts)
    | (none, acts) =>
      let vmidStr := itoa vmid
      match (if vmType = "qemu" then some (("qmrestore"), [dumpPath, vmidStr, ("--force")])
             else if vmType = "lxc" then some (("pct"), [("restore"), vmidStr, dumpPath, ("--force")])
             else none) with
      | none => (some (.unsupportedType vmType), acts)
      | some (cmd, args) =>
        let out := cb.run cmd args
        let acts2 := acts ++ [Action.runCmd cmd args]
        if out.2.2 then (none, acts2)
        else (some (.restoreFailed (trimSpace out.2.1)), acts2)

structure PendingDump where
  record : Rec
  dumpPath : String
deriving DecidableEq

/-- Lookup in a Go map modelled as an association list. -/
def alGet {α : Type} (m : List (String × α)) (k : String) : Option α :=
  match m with
  | [] => none
  | (k2, v) :: rest => if k2 = k then some v else alGet rest k

/-- Insert/overwrite in the map model (iteration order of the model is
insertion order, a fixed representative of Go's arbitrary map order). -/
def alPut {α : Type} (m : List (String × α)) (k : String) (v : α) :
    List (String × α) :=
  (m.filter (fun kv => kv.1 != k)) ++ [(k, v)]

def alDel {α : Type} (m : List (String × α)) (k : String) : List (String × α) :=
  m.filter (fun kv => kv.1 != k)

/-- The correlation state of one Export call. -/
structure ExportState where
  metadataByArchive : List (String × DumpMetadata)
  pendingDumps : List (String × PendingDump)
deriving DecidableEq

abbrev RRes := Rec × Option ExpErr

/-- The restore-vmid filter guard applied to a parsed name: skip (pass
the record through untouched) only when the name parses and its vmid
differs from the configured filter. -/
def filterSkip (filter : Option Int) (name : String) : Bool :=
  match filter with
  | none => false
  | some fv =>
    match parseDumpFilename name with
    | .ok kv => kv.2 != fv
    | .error _ => false

/-- One iteration of the Export record loop, following the Go control
flow branch for branch.  Returns the new state, the results emitted for
this record (in emission order), and the client actions performed. -/
def processRecord (cfg : Cfg) (cb : ClientBehavior) (st : ExportState)
    (record : Rec) : ExportState × List RRes × List Action :=
  if record.hasErr || record.isXattr || !record.isRegular then
    (st, [(record, none)], [])
  else
    let base := pathBase record.pathname
    match parseMetadataFilename base with
    | some archiveName =>
      if filterSkip cfg.restoreVMID archiveName then (st, [(record, none)], [])
      else
        match record.decode with
        | .error msg => (st, [(record, some (.decodeFailed msg))], [])
        | .ok meta0 =>
          if (match cfg.restoreVMID with
              | some fv => meta0.vmid != fv
              | none => false) then
            (st, [(record, none)], [])
          else
            match validateMetadata archiveName meta0 with
            | some verr =>
              match alGet st.pendingDumps archiveName with
              | some pending =>
                ({ st with pendingDumps := alDel st.pendingDumps archiveName },
                 [(record, some verr), (pending.record, some verr)],
                 if cfg.cleanup then [Action.removeFile pending.dumpPath] else [])
              | none => (st, [(record, some verr)], [])
            | none =>
              let meta := { meta0 with archiveName := archiveName }
              let stM := { st with
                metadataByArchive := alPut st.metadataByArchive archiveName meta }
              match alGet stM.pendingDumps archiveName with
              | some pending =>
                let rd := restoreDump cb pending.dumpPath archiveName meta
                let step2 : Option ExpErr × List Action :=
                  match rd.1 with
                  | some e => (some e, rd.2)
                  | none =>
                    if cfg.cleanup then
                      ((cb.removeOk pending.dumpPath).map ExpErr.removeFailed,
                       rd.2 ++ [Action.removeFile pending.dumpPath])
                    else (none, rd.2)
                ({ metadataByArchive := alDel stM.metadataByArchive archiveName,
                   pendingDumps := alDel stM.pendingDumps archiveName },
                 [(pending.record, step2.1), (record, none)], step2.2)
              | none => (stM, [(record, none)], [])
    | none =>
      if filterSkip cfg.restoreVMID base then (st, [(record, none)], [])
      else
        let dumpPath := pathJoin cfg.dumpDir base
        let wacts := [Action.writeFile dumpPath]
        match cb.writeOk dumpPath with
        | some werr => (st, [(record, some (.writeFailed werr))], wacts)
        | none =>
          match record.closeErr with
          | some cerr => (st, [(record, some (.closeFailed cerr))], wacts)
          | none =>
            match alGet st.metadataByArchive base with
            | none =>
              let pd : PendingDump := { record := record, dumpPath := dumpPath }
              ({ st with pendingDumps := alPut st.pendingDumps base pd }, [], wacts)
            | some meta =>
              let rd := restoreDump cb dumpPath base meta
              match rd.1 with
              | some e => (st, [(record, some e)], wacts ++ rd.2)
              | none =>
                let st2 := { st with
                  metadataByArchive := alDel st.metadataByArchive base }
                if cfg.cleanup then
                  match cb.removeOk dumpPath with
                  | some m =>
                    (st2, [(record, some (.removeFailed m))],
                     wacts ++ rd.2 ++ [Action.removeFile dumpPath])
                  | none =>
                    (st2, [(record, none)],
                     wacts ++ rd.2 ++ [Action.removeFile dumpPath])
                else (st2, [(record, none)], wacts ++ rd.2)

/-- The end-of-job flush: every archive still pending is reported as a
missing-metadata error for its buffered record, and its staged file is
removed when cleanup is enabled (remove failures are discarded). -/
def flushPending (cfg : Cfg) (pend : List (String × PendingDump)) :
    List RRes × List Action :=
  match pend with
  | [] => ([], [])
  | (archiveName, pending) :: rest =>
    let tail := flushPending cfg rest
    ((pending.record, some (.missingMetadata archiveName)) :: tail.1,
     (if cfg.cleanup then [Action.removeFile pending.dumpPath] else []) ++ tail.2)

/-- The Export record loop. -/
def exportLoop (cfg : Cfg) (cb : ClientBehavior) :
    ExportState → List Rec → ExportState × List RRes × List Action
  | st, [] => (st, [], [])
  | st, r :: rs =>
    let s1 := processRecord cfg cb st r
    let s2 := exportLoop cfg cb s1.1 rs
    (s2.1, s1.2.1 ++ s2.2.1, s1.2.2 ++ s2.2.2)

/-- A whole Export call: run the loop from the empty correlation state,
then flush the leftover pending dumps. -/
def exportRun (cfg : Cfg) (cb : ClientBehavior) (records : List Rec) :
    List RRes × List Action :=
  let fin := exportLoop cfg cb ⟨[], []⟩ records
  let fl := flushPending cfg fin.1.pendingDumps
  (fin.2.1 ++ fl.1, fin.2.2 ++ fl.2)

/-- Recognizer for a restore command invocation in an action trace. -/
def isRestoreRun (a : Action) : Bool :=
  match a with
  | .runCmd c args => (c == "qmrestore") || (c == "pct" && args.head? == some ("restore"))
  | _ => false

/-- The restore command invocation `restoreDump` issues for a kind and
identifier. -/
def restoreCallFor (vmType : String) (vmid : Int) (dumpPath : String) : Action :=
  if vmType = "qemu" then .runCmd ("qmrestore") [dumpPath, itoa vmid, ("--force")]
  else .runCmd ("pct") [("restore"), itoa vmid, dumpPath, ("--force")]

/-- Does a parse outcome carry the unsupported-version error? -/
def isUnsupportedVersionErr (e : Except DumpNameErr (String × Int)) : Bool :=
  match e with
  | .error (.unsupportedVersion _) => true
  | _ => false

/-- The diagnostic text `stopVM` inspects: trimmed stderr, or trimmed
stdout when the former is empty. -/
def effectiveStopOutput (so se : String) : String :=
  if trimSpace se = "" then trimSpace so else trimSpace se

/-- A client whose commands, writes and removals all succeed. -/
def cbAllOk : ClientBehavior :=
  { run := fun _ _ => ("", "", true), writeOk := fun _ => none, removeOk := fun _ => none }

/-- A client whose stop commands fail with the given stderr text and
whose other effects succeed. -/
def cbStopOut (se : String) : ClientBehavior :=
  { run := fun _ args => if args.head? == some ("stop") then ("", se, false) else ("", "", true),
    writeOk := fun _ => none, removeOk := fun _ => none }

/-- A sample decoded sidecar metadata value (vmid 100, kind qemu, no
stated archive name). -/
def sampleMeta : DumpMetadata := { vmid := 100, vmType := "qemu", archiveName := "" }

/-- A sample sidecar record for archive `vzdump-qemu-100-t.vma`. -/
def sampleSidecar : Rec :=
  { pathname := "/snap/.plakar-meta-vzdump-qemu-100-t.vma.json", hasErr := false,
    isXattr := false, isRegular := true, decode := .ok sampleMeta, closeErr := none }

/-- A sample payload record for archive `vzdump-qemu-100-t.vma`. -/
def samplePayload : Rec :=
  { pathname := "/snap/vzdump-qemu-100-t.vma", hasErr := false, isXattr := false,
    isRegular := true, decode := .error ("not json"), closeErr := none }

/-- A sample configuration with cleanup enabled and no vmid filter. -/
def sampleCfg : Cfg := { restoreVMID := none, cleanup := true, dumpDir := "/dump" }

/-- A payload record whose basename parses neither as a sidecar name
nor as a vzdump dump name. -/
def oddPayload : Rec :=
  { pathname := "/snap/archive.bin", hasErr := false, isXattr := false,
    isRegular := true, decode := .error ("not json"), closeErr := none }

/-! ## General lemmas about the helpers -/

lemma stripLit_self_append (l cs : List Char) : stripLit l (l ++ cs) = some cs := by
  induction l with
  | nil => rfl
  | cons c cs2 ih => simp [stripLit, ih]

lemma takeWhile_all_append (p : Char → Bool) (l r : List Char)
    (h : ∀ c ∈ l, p c = true) : (l ++ r).takeWhile p = l ++ r.takeWhile p := by
  induction l with
  | nil => simp
  | cons c cs ih =>
    simp only [List.cons_append, List.takeWhile_cons, h c (by simp), if_true]
    rw [ih (fun c hc => h c (by simp [hc]))]

lemma dropWhile_all_append (p : Char → Bool) (l r : List Char)
    (h : ∀ c ∈ l, p c = true) : (l ++ r).dropWhile p = r.dropWhile p := by
  induction l with
  | nil => simp
  | cons c cs ih =>
    simp only [List.cons_append, List.dropWhile_cons, h c (by simp), if_true]
    exact ih (fun c hc => h c (by simp [hc]))

lemma span1Digits_build (ds rest : List Char) (h1 : ds ≠ [])
    (h2 : ∀ c ∈ ds, c.isDigit = true) :
    span1Digits (ds ++ '-' :: rest) = some (ds, '-' :: rest) := by
  unfold span1Digits
  rw [takeWhile_all_append _ _ _ h2, dropWhile_all_append _ _ _ h2]
  simp [List.takeWhile_cons, List.dropWhile_cons, h1]

lemma matchTail_build (kind : String) (hk : kind = "qemu" ∨ kind = "lxc")
    (ds rest : List Char) (h1 : ds ≠ []) (h2 : ∀ c ∈ ds, c.isDigit = true) :
    matchTail ('-' :: (kind.data ++ ('-' :: (ds ++ '-' :: rest)))) = some (kind, ds) := by
  rcases hk with hk | hk <;> subst hk <;>
    simp [matchTail, matchKind, stripLit, List.cons_append,
      span1Digits_build ds rest h1 h2]

lemma matchDumpName_build (kind : String) (hk : kind = "qemu" ∨ kind = "lxc")
    (ds rest : List Char) (h1 : ds ≠ []) (h2 : ∀ c ∈ ds, c.isDigit = true) :
    matchDumpName (("vzdump").data ++ ('-' :: (kind.data ++ ('-' :: (ds ++ '-' :: rest))))) =
      some (none, kind, ds) := by
  unfold matchDumpName
  rw [stripLit_self_append]
  rcases hk with hk | hk <;> subst hk <;>
    simp [matchTail, matchKind, stripLit, List.cons_append,
      span1Digits_build ds rest h1 h2]

lemma natDigitChar_isDigit (d : Nat) (h : d < 10) : (natDigitChar d).isDigit = true := by
  interval_cases d <;> decide

lemma digitsOfAux_fuel (fuel1 fuel2 n : Nat) (h1 : n < fuel1) (h2 : n < fuel2) :
    digitsOfAux fuel1 n = digitsOfAux fuel2 n := by
  induction n using Nat.strong_induction_on generalizing fuel1 fuel2 with
  | _ n ih =>
    match fuel1, fuel2 with
    | f1 + 1, f2 + 1 =>
      unfold digitsOfAux
      by_cases h : n < 10
      · rw [if_pos h, if_pos h]
      · rw [if_neg h, if_neg h, ih (n / 10) (by omega) f1 f2 (by omega) (by omega)]

lemma digitsOf_eq (n : Nat) : digitsOf n =
    if n < 10 then [natDigitChar n]
    else digitsOf (n / 10) ++ [natDigitChar (n % 10)] := by
  unfold digitsOf
  by_cases h : n < 10
  · unfold digitsOfAux
    rw [if_pos h, if_pos h]
  · conv =>
      left
      rw [digitsOfAux]
    rw [if_neg h, if_neg h, digitsOfAux_fuel n (n / 10 + 1) (n / 10) (by omega) (by omega)]

lemma natDigitChar_toNat (d : Nat) (h : d < 10) : (natDigitChar d).toNat = 48 + d := by
  interval_cases d <;> decide

lemma digitsOf_ne_nil (n : Nat) : digitsOf n ≠ [] := by
  rw [digitsOf_eq]
  split <;> simp

lemma digitsOf_all (n : Nat) : ∀ c ∈ digitsOf n, c.isDigit = true := by
  induction n using Nat.strong_induction_on with
  | _ n ih =>
    rw [digitsOf_eq]
    split
    next h =>
      intro c hc
      simp only [List.mem_singleton] at hc
      subst hc
      exact natDigitChar_isDigit n h
    next h =>
      intro c hc
      simp only [List.mem_append, List.mem_singleton] at hc
      rcases hc with hc | hc
      · exact ih (n / 10) (by omega) c hc
      · subst hc
        exact natDigitChar_isDigit (n % 10) (by omega)

lemma digitsVal_append_one (l : List Char) (c : Char) :
    digitsVal (l ++ [c]) = digitsVal l * 10 + (c.toNat - 48) := by
  unfold digitsVal
  rw [List.foldl_append]
  simp [List.foldl]

lemma digitsVal_digitsOf (n : Nat) : digitsVal (digitsOf n) = n := by
  induction n using Nat.strong_induction_on with
  | _ n ih =>
    rw [digitsOf_eq]
    split
    next h =>
      simp [digitsVal, List.foldl, natDigitChar_toNat n h]
    next h =>
      rw [digitsVal_append_one, ih (n / 10) (by omega), natDigitChar_toNat (n % 10) (by omega)]
      omega

lemma atoiDigits_digitsOf (n : Nat) (h : n ≤ maxInt64) : atoiDigits (digitsOf n) = some (n : Int) := by
  unfold atoiDigits
  rw [if_pos, if_pos (by rw [digitsVal_digitsOf]; exact h), digitsVal_digitsOf]
  exact ⟨digitsOf_ne_nil n, List.all_eq_true.mpr (digitsOf_all n)⟩

lemma itoa_nonneg_data (n : Int) (h : 0 ≤ n) : (itoa n).data = digitsOf n.toNat := by
  unfold itoa
  rw [if_neg (by omega)]

lemma dropWhile_false_eq_self (p : Char → Bool) (l : List Char)
    (h : ∀ c ∈ l, p c = false) : l.dropWhile p = l := by
  cases l with
  | nil => rfl
  | cons c cs => simp [List.dropWhile_cons, h c (by simp)]

lemma takeWhile_true_eq_self (p : Char → Bool) (l : List Char)
    (h : ∀ c ∈ l, p c = true) : l.takeWhile p = l := by
  induction l with
  | nil => rfl
  | cons c cs ih =>
    simp [List.takeWhile_cons, h c (by simp), ih (fun c hc => h c (by simp [hc]))]

lemma data_ne_nil_of_ne_empty (s : String) (hne : s ≠ "") : s.data ≠ [] := by
  intro he
  apply hne
  cases s with
  | mk d => simp only at he; rw [he]

lemma pathBase_no_slash (s : String) (hne : s ≠ "")
    (h : ∀ c ∈ s.data, c ≠ '/') : pathBase s = s := by
  unfold pathBase
  rw [if_neg hne]
  have hd : s.data.reverse.dropWhile (fun c => c = '/') = s.data.reverse := by
    apply dropWhile_false_eq_self
    intro c hc
    simp only [List.mem_reverse] at hc
    simp [h c hc]
  rw [hd, List.reverse_reverse]
  rw [if_neg (data_ne_nil_of_ne_empty s hne)]
  have ht : s.data.reverse.takeWhile (fun c => ¬ c = '/') = s.data.reverse := by
    apply takeWhile_true_eq_self
    intro c hc
    simp only [List.mem_reverse] at hc
    simp [h c hc]
  rw [ht, List.reverse_reverse]

lemma buildDumpFilename_data (kind : String) (vmid : Int) (h : 0 ≤ vmid)
    (ts ext suf : String) :
    (buildDumpFilename kind vmid ts ext suf).data =
      ("vzdump").data ++ ('-' :: (kind.data ++ ('-' :: (digitsOf vmid.toNat ++
        '-' :: (ts.data ++ '.' :: (ext.data ++ suf.data)))))) := by
  unfold buildDumpFilename
  simp [String.data_append, itoa_nonneg_data vmid h]

lemma span1Digits_spec (cs ds rest : List Char) (h : span1Digits cs = some (ds, rest)) :
    ds ≠ [] ∧ ∀ c ∈ ds, c.isDigit = true := by
  unfold span1Digits at h
  split at h
  · exact absurd h (by simp)
  · next hne =>
    simp only [Option.some.injEq, Prod.mk.injEq] at h
    refine ⟨h.1 ▸ hne, ?_⟩
    intro c hc
    rw [← h.1] at hc
    exact List.mem_takeWhile_imp hc

lemma matchDumpName_version_digits (cs : List Char) (vd : List Char) (kind : String)
    (idd : List Char) (h : matchDumpName cs = some (some vd, kind, idd)) :
    vd ≠ [] ∧ ∀ c ∈ vd, c.isDigit = true := by
  unfold matchDumpName at h
  split at h
  · exact absurd h (by simp)
  · split at h
    · split at h
      · split at h
        next hsp =>
          split at h
          next hmt =>
            simp only [Option.some.injEq, Prod.mk.injEq] at h
            obtain ⟨h1, _⟩ := h
            exact h1 ▸ span1Digits_spec _ _ _ hsp
          next => exact absurd h (by simp)
        next => exact absurd h (by simp)
      · split at h
        · simp only [Option.some.injEq, Prod.mk.injEq] at h
          exact absurd h.1 (by simp)
        · exact absurd h (by simp)
    · split at h
      · simp only [Option.some.injEq, Prod.mk.injEq] at h
        exact absurd h.1 (by simp)
      · exact absurd h (by simp)

lemma parseDumpFilename_unsupported (name : String) (vd : List Char) (kind : String)
    (idd : List Char)
    (hm : matchDumpName (pathBase name).data = some (some vd, kind, idd))
    (hv2 : digitsVal vd ≤ maxInt64) (hv1 : digitsVal vd ≠ 1) :
    parseDumpFilename name = .error (.unsupportedVersion (digitsVal vd)) := by
  simp only [parseDumpFilename]
  rw [hm]
  obtain ⟨hne, hdig⟩ := matchDumpName_version_digits _ _ _ _ hm
  have ha : atoiDigits vd = some ((digitsVal vd : Nat) : Int) := by
    unfold atoiDigits
    rw [if_pos ⟨hne, List.all_eq_true.mpr hdig⟩, if_pos hv2]
  simp only [ha]
  rw [if_pos]
  simp only [DumpFilenameVersion]
  omega

lemma parseDumpFilename_build (kind : String) (hk : kind = "qemu" ∨ kind = "lxc")
    (vmid : Int) (h1 : 1 ≤ vmid) (h2 : vmid.toNat ≤ maxInt64)
    (ts ext suf : String)
    (hts : ∀ c ∈ ts.data, c ≠ '/') (hext : ∀ c ∈ ext.data, c ≠ '/')
    (hsuf : ∀ c ∈ suf.data, c ≠ '/') :
    parseDumpFilename (buildDumpFilename kind vmid ts ext suf) = .ok (kind, vmid) := by
  have hvm0 : (0 : Int) ≤ vmid := by omega
  have hdata := buildDumpFilename_data kind vmid hvm0 ts ext suf
  have hkc : ∀ c ∈ kind.data, c ≠ '/' := by
    rcases hk with hk | hk <;> subst hk <;> decide
  have hdc : ∀ c ∈ digitsOf vmid.toNat, c ≠ '/' := by
    intro c hc he
    have := digitsOf_all vmid.toNat c hc
    subst he
    exact absurd this (by decide)
  have hns : ∀ c ∈ (buildDumpFilename kind vmid ts ext suf).data, c ≠ '/' := by
    rw [hdata]
    refine List.forall_mem_append.mpr ⟨by decide, ?_⟩
    refine List.forall_mem_cons.mpr ⟨by decide, ?_⟩
    refine List.forall_mem_append.mpr ⟨hkc, ?_⟩
    refine List.forall_mem_cons.mpr ⟨by decide, ?_⟩
    refine List.forall_mem_append.mpr ⟨hdc, ?_⟩
    refine List.forall_mem_cons.mpr ⟨by decide, ?_⟩
    refine List.forall_mem_append.mpr ⟨hts, ?_⟩
    refine List.forall_mem_cons.mpr ⟨by decide, ?_⟩
    exact List.forall_mem_append.mpr ⟨hext, hsuf⟩
  have hne : buildDumpFilename kind vmid ts ext suf ≠ "" := by
    intro he
    have hd : (buildDumpFilename kind vmid ts ext suf).data = [] := by rw [he]
    rw [hdata] at hd
    simp at hd
  simp only [parseDumpFilename]
  rw [pathBase_no_slash _ hne hns, hdata,
    matchDumpName_build kind hk _ _ (digitsOf_ne_nil _) (digitsOf_all _)]
  simp [atoiDigits_digitsOf _ h2, Int.toNat_of_nonneg hvm0]

/-! ## Claim theorems -/

/-- C5 counterexample: the filename
`vzdump-v9223372036854775808-qemu-100-x.vma` carries a version tag
whose value (2^63, outside the `strconv.Atoi` range) differs from the
supported version 1, yet `ParseDumpFilename` does not fail with the
unsupported-version error: it fails with the invalid-version error. -/
theorem c5_counterexample :
    matchDumpName (pathBase ("vzdump-v9223372036854775808-qemu-100-x.vma")).data =
      some (some (("9223372036854775808").data), "qemu", ("100").data) ∧
    digitsVal (("9223372036854775808").data) ≠ 1 ∧
    isUnsupportedVersionErr
      (parseDumpFilename ("vzdump-v9223372036854775808-qemu-100-x.vma")) = false ∧
    parseDumpFilename ("vzdump-v9223372036854775808-qemu-100-x.vma") =
      .error (.invalidVersion ("vzdump-v9223372036854775808-qemu-100-x.vma")) := by
  decide

/-- C5 (amended): for kind qemu or lxc, a positive identifier in the
`Atoi` range and slash-free timestamp/extension/suffix parts, parsing
the built dump filename returns the same kind and identifier; and every
filename whose dump-name match carries a version tag with value other
than 1 — the value being within the `Atoi` range — fails to parse with
the unsupported-version error. -/
theorem c5_dumpname_roundtrip_and_version
    (kind : String) (hk : kind = "qemu" ∨ kind = "lxc")
    (vmid : Int) (h1 : 1 ≤ vmid) (h2 : vmid.toNat ≤ maxInt64)
    (ts ext suf : String)
    (hts : ∀ c ∈ ts.data, c ≠ '/') (hext : ∀ c ∈ ext.data, c ≠ '/')
    (hsuf : ∀ c ∈ suf.data, c ≠ '/')
    (name : String) (vd idd : List Char) (kind2 : String)
    (hm : matchDumpName (pathBase name).data = some (some vd, kind2, idd))
    (hv2 : digitsVal vd ≤ maxInt64) (hv1 : digitsVal vd ≠ 1) :
    parseDumpFilename (buildDumpFilename kind vmid ts ext suf) = .ok (kind, vmid) ∧
    parseDumpFilename name = .error (.unsupportedVersion (digitsVal vd)) :=
  ⟨parseDumpFilename_build kind hk vmid h1 h2 ts ext suf hts hext hsuf,
   parseDumpFilename_unsupported name vd kind2 idd hm hv2 hv1⟩

/-- C5 witness: the amended claim at kind qemu, id 101, a concrete
timestamp, and the unsupported version tag v2. -/
theorem c5_witness :
    parseDumpFilename
        (buildDumpFilename ("qemu") 101 ("2025_01_01-00_00_00") ("vma") (".zst")) =
      .ok ("qemu", 101) ∧
    parseDumpFilename ("vzdump-v2-lxc-7-x.tar") = .error (.unsupportedVersion 2) := by
  have h := c5_dumpname_roundtrip_and_version ("qemu") (Or.inl rfl) 101 (by norm_num)
    (by decide) ("2025_01_01-00_00_00") ("vma") (".zst") (by decide) (by decide) (by decide)
    ("vzdump-v2-lxc-7-x.tar") (("2").data) (("7").data) ("lxc") (by decide) (by decide) (by decide)
  have e : ((digitsVal (("2").data) : Nat) : Int) = 2 := by decide
  exact ⟨h.1, e ▸ h.2⟩

/-- C6: for every non-empty archive name the sidecar filename
round-trips (`ParseMetadataFilename (MetadataFilename name) = name`);
an input missing the fixed prefix or the fixed suffix is rejected; and
an input whose enclosed archive name trims to empty is rejected. -/
theorem c6_metadata_filename_codec (name s : String) (hname : name ≠ "") :
    parseMetadataFilename (metadataFilename name) = some name ∧
    (metaPre.data.isPrefixOf s.data = false ∨ metaSuf.data.isSuffixOf s.data = false →
      parseMetadataFilename s = none) ∧
    (dropSufL (s.data.drop metaPre.data.length) metaSuf.data = [] →
      parseMetadataFilename s = none) := by
  refine ⟨?_, ?_, ?_⟩
  · unfold metadataFilename
    simp only [parseMetadataFilename]
    have hdata : (metaPre ++ name ++ metaSuf).data =
        metaPre.data ++ (name.data ++ metaSuf.data) := by
      simp [String.data_append, List.append_assoc]
    rw [hdata]
    have h1 : metaPre.data.isPrefixOf (metaPre.data ++ (name.data ++ metaSuf.data)) = true :=
      List.isPrefixOf_iff_prefix.mpr (List.prefix_append _ _)
    have h2 : metaSuf.data.isSuffixOf (metaPre.data ++ (name.data ++ metaSuf.data)) = true := by
      apply List.isSuffixOf_iff_suffix.mpr
      rw [← List.append_assoc]
      exact List.suffix_append _ _
    rw [h1, h2]
    simp only [Bool.and_self, if_true]
    rw [List.drop_left]
    unfold dropSufL
    rw [if_pos (List.isSuffixOf_iff_suffix.mpr (List.suffix_append _ _))]
    have h3 : (name.data ++ metaSuf.data).take
        ((name.data ++ metaSuf.data).length - metaSuf.data.length) = name.data := by
      rw [List.length_append]
      have : name.data.length + metaSuf.data.length - metaSuf.data.length =
          name.data.length := by omega
      rw [this, List.take_left]
    rw [h3, if_neg (data_ne_nil_of_ne_empty name hname)]
  · intro h
    simp only [parseMetadataFilename]
    rcases h with h | h <;> rw [h] <;> simp
  · intro h
    simp only [parseMetadataFilename]
    by_cases hc : (metaPre.data.isPrefixOf s.data && metaSuf.data.isSuffixOf s.data) = true
    · rw [if_pos hc, if_pos h]
    · rw [if_neg hc]

/-- C6 witness: the codec at a concrete archive name, a concrete
marker-free input, and the concrete empty-enclosure input. -/
theorem c6_witness :
    parseMetadataFilename (metadataFilename ("vzdump-qemu-100-t.vma")) =
      some ("vzdump-qemu-100-t.vma") ∧
    parseMetadataFilename ("vzdump-qemu-100-t.vma") = none ∧
    parseMetadataFilename (".plakar-meta-.json") = none := by
  refine ⟨(c6_metadata_filename_codec ("vzdump-qemu-100-t.vma") ("vzdump-qemu-100-t.vma")
    (by decide)).1, ?_, ?_⟩
  · exact (c6_metadata_filename_codec ("vzdump-qemu-100-t.vma") ("vzdump-qemu-100-t.vma")
      (by decide)).2.1 (by decide)
  · exact (c6_metadata_filename_codec ("vzdump-qemu-100-t.vma") (".plakar-meta-.json")
      (by decide)).2.2 (by decide)

lemma isPrefixOf_take_16 (l s : List Nat) (hl : l.length ≤ 16) :
    l.isPrefixOf (s.take 16) = l.isPrefixOf s := by
  by_cases h : l <+: s
  · rw [List.isPrefixOf_iff_prefix.mpr (List.prefix_take_iff.mpr ⟨h, hl⟩),
      List.isPrefixOf_iff_prefix.mpr h]
  · have h1 : ¬ l <+: s.take 16 := fun hc => h (List.prefix_take_iff.mp hc).1
    have e1 : l.isPrefixOf (s.take 16) = false := by
      cases hb : l.isPrefixOf (s.take 16)
      · rfl
      · exact absurd (List.isPrefixOf_iff_prefix.mp hb) h1
    have e2 : l.isPrefixOf s = false := by
      cases hb : l.isPrefixOf s
      · rfl
      · exact absurd (List.isPrefixOf_iff_prefix.mp hb) h
    rw [e1, e2]

lemma backupVMStream_captured (vmType : String) (hk : vmType = "qemu" ∨ vmType = "lxc")
    (vmid : Int) (ts stderrText : String) (s : List Nat) (hs : s ≠ []) :
    backupVMStream vmType vmid ts s stderrText =
      .captured (buildDumpFilename vmType vmid ts
        (if vmType = "qemu" then ("vma") else ("tar"))
        (detectCompressionSuffix (s.take 16))) s := by
  have hns : s.take 16 ≠ [] := by
    rw [Ne, List.take_eq_nil_iff]
    simp [hs]
  rcases hk with hk | hk <;> subst hk <;>
    simp [backupVMStream, dumpBaseExtension, readStreamHeaderBytes, hns,
      List.take_append_drop]

/-- C2: the sniffed suffix of a captured stream is `.gz` exactly when
the output starts with `1F 8B`, `.zst` for the zstd magic, `.lzo` for
the 9-byte lzo magic and empty otherwise (including empty and short
headers); and the stream handed to the caller is the 16-byte peeked
header re-prepended to the rest — byte for byte the command output. -/
theorem c2_compression_and_header_round_trip (s : List Nat) (vmType : String)
    (hk : vmType = "qemu" ∨ vmType = "lxc") (vmid : Int) (ts stderrText : String) :
    (detectCompressionSuffix (readStreamHeaderBytes s 16) =
      if gzMagic.isPrefixOf s then ".gz"
      else if zstMagic.isPrefixOf s then ".zst"
      else if lzoMagic.isPrefixOf s then ".lzo"
      else "") ∧
    readStreamHeaderBytes s 16 ++ s.drop 16 = s ∧
    (s ≠ [] → backupVMStream vmType vmid ts s stderrText =
      .captured (buildDumpFilename vmType vmid ts
        (if vmType = "qemu" then ("vma") else ("tar"))
        (detectCompressionSuffix (s.take 16))) s) := by
  refine ⟨?_, List.take_append_drop 16 s, backupVMStream_captured vmType hk vmid ts stderrText s⟩
  unfold detectCompressionSuffix readStreamHeaderBytes
  rw [isPrefixOf_take_16 _ _ (by decide), isPrefixOf_take_16 _ _ (by decide),
    isPrefixOf_take_16 _ _ (by decide)]

/-- C2 witness: a gzip-magic stream of three bytes. -/
theorem c2_witness :
    detectCompressionSuffix (readStreamHeaderBytes [0x1f, 0x8b, 7] 16) = ".gz" ∧
    backupVMStream ("qemu") 100 ("ts") [0x1f, 0x8b, 7] ("d") =
      .captured ("vzdump-qemu-100-ts.vma.gz") [0x1f, 0x8b, 7] := by
  have h := c2_compression_and_header_round_trip [0x1f, 0x8b, 7] ("qemu") (Or.inl rfl)
    100 ("ts") ("d")
  refine ⟨?_, ?_⟩
  · rw [h.1]; decide
  · have h3 := h.2.2 (by decide)
    rw [h3]; decide

/-- C3 counterexample: a 5-byte output reaches end-of-stream before the
full 16-byte header is collected, yet the capture does not fail — the
`io.ReadFull` short-read is mapped to success, so a stream and archive
name are returned. -/
theorem c3_counterexample :
    ([1, 2, 3, 4, 5] : List Nat).length < 16 ∧
    backupVMStream ("qemu") 100 ("ts") [1, 2, 3, 4, 5] ("diag") =
      .captured ("vzdump-qemu-100-ts.vma") [1, 2, 3, 4, 5] := by
  decide

/-- C3 (amended): the capture fails immediately — with the diagnostic
text collected so far, returning no stream and no archive name — only
when the output reaches end-of-stream before ANY header byte was
collected; a non-empty short header proceeds instead. -/
theorem c3_empty_header_failure (vmType : String) (vmid : Int)
    (ts stderrText : String) (s : List Nat) (hk : vmType = "qemu" ∨ vmType = "lxc") :
    (s = [] → backupVMStream vmType vmid ts s stderrText =
      .failed ("empty vzdump stream header: " ++ trimSpace stderrText)) ∧
    (s ≠ [] → ∀ msg, backupVMStream vmType vmid ts s stderrText ≠ .failed msg) := by
  constructor
  · intro hs
    subst hs
    rcases hk with hk | hk <;> subst hk <;>
      simp [backupVMStream, dumpBaseExtension, readStreamHeaderBytes]
  · intro hs msg
    rw [backupVMStream_captured vmType hk vmid ts stderrText s hs]
    simp

/-- C3 witness: the amended claim on the empty stream (failure with the
trimmed diagnostic) and on a one-byte stream (no failure). -/
theorem c3_witness :
    backupVMStream ("qemu") 100 ("ts") [] (" diag ") =
      .failed ("empty vzdump stream header: diag") ∧
    backupVMStream ("qemu") 100 ("ts") [9] ("x") ≠ .failed ("anything") := by
  constructor
  · have h := (c3_empty_header_failure ("qemu") 100 ("ts") (" diag ") [] (Or.inl rfl)).1 rfl
    rw [h]; decide
  · exact (c3_empty_header_failure ("qemu") 100 ("ts") ("x") [9] (Or.inl rfl)).2
      (by decide) ("anything")

/-- Invariant tying a reachable `streamReadCloser` state to its child's
outcome: the ghost counter equals 1 exactly when finalization ran, and
the cached error is determined by the child's exit outcome. -/
def srcInv (p : SRC) (finishFails : Bool) (stderrText : String) : Prop :=
  p.finishFails = finishFails ∧ p.stderrText = stderrText ∧
  p.finishCount = (if p.finished then 1 else 0) ∧
  (p.finished = true →
    p.finishErr = (if finishFails then some (vzdumpFinishErr stderrText) else none)) ∧
  (p.finished = false → p.finishErr = none)

lemma srcInv_init (stdoutBytes : List Nat) (finishFails : Bool) (stderrText : String) :
    srcInv (initSRC stdoutBytes finishFails stderrText) finishFails stderrText := by
  simp [srcInv, initSRC]

lemma srcInv_finalize (p : SRC) (finishFails : Bool) (stderrText : String)
    (h : srcInv p finishFails stderrText) :
    srcInv (finalizeSRC p).2 finishFails stderrText ∧
    (finalizeSRC p).1 = (if finishFails then some (vzdumpFinishErr stderrText) else none) := by
  obtain ⟨h1, h2, h3, h4, h5⟩ := h
  unfold finalizeSRC
  by_cases hf : p.finished
  · rw [if_pos hf]
    exact ⟨⟨h1, h2, h3, h4, h5⟩, h4 hf⟩
  · rw [if_neg hf]
    rw [Bool.not_eq_true] at hf
    simp only [hf] at h3
    refine ⟨⟨h1, h2, ?_, ?_, ?_⟩, ?_⟩ <;> simp [h1, h2, h3, hf]

lemma srcInv_step (p : SRC) (e : SEvent) (finishFails : Bool) (stderrText : String)
    (h : srcInv p finishFails stderrText) :
    srcInv (srcStep p e) finishFails stderrText := by
  obtain ⟨h1, h2, h3, h4, h5⟩ := h
  cases e with
  | read =>
    unfold srcStep readSRC
    cases hr : p.remaining with
    | cons b rest => exact ⟨h1, h2, h3, h4, h5⟩
    | nil =>
      have := (srcInv_finalize p finishFails stderrText ⟨h1, h2, h3, h4, h5⟩).1
      cases hfe : (finalizeSRC p).1 <;> simpa [hfe] using this
  | close =>
    unfold srcStep closeSRC
    by_cases hc : p.closed
    · rw [if_pos hc]
      exact ⟨h1, h2, h3, h4, h5⟩
    · rw [if_neg hc]
      exact (srcInv_finalize { p with closed := true } finishFails stderrText
        ⟨h1, h2, h3, h4, h5⟩).1

lemma srcInv_run (p : SRC) (es : List SEvent) (finishFails : Bool) (stderrText : String)
    (h : srcInv p finishFails stderrText) : srcInv (srcRun p es) finishFails stderrText := by
  induction es generalizing p with
  | nil => exact h
  | cons e es ih => exact ih _ (srcInv_step p e finishFails stderrText h)

/-- C7: across any sequence of read-EOF and Close events on a capture
stream, the finalize body (wait for the child, join the diagnostic
drain) runs at most once; its result is cached as `finishErr`,
determined by the child's exit outcome; and when the child failed, a
read at end-of-stream returns the error embedding the trimmed
diagnostic text instead of a clean EOF. -/
theorem c7_finalize_once_and_error_priority (stdoutBytes : List Nat)
    (finishFails : Bool) (stderrText : String) (es : List SEvent) :
    (srcRun (initSRC stdoutBytes finishFails stderrText) es).finishCount ≤ 1 ∧
    ((srcRun (initSRC stdoutBytes finishFails stderrText) es).finished = true →
      (srcRun (initSRC stdoutBytes finishFails stderrText) es).finishErr =
        (if finishFails then some (vzdumpFinishErr stderrText) else none)) ∧
    (finishFails = true →
      (srcRun (initSRC stdoutBytes finishFails stderrText) es).remaining = [] →
      (readSRC (srcRun (initSRC stdoutBytes finishFails stderrText) es)).1 =
        .errored (vzdumpFinishErr stderrText)) := by
  have hinv := srcInv_run _ es finishFails stderrText
    (srcInv_init stdoutBytes finishFails stderrText)
  obtain ⟨h1, h2, h3, h4, h5⟩ := hinv
  refine ⟨by rw [h3]; split <;> omega, h4, ?_⟩
  intro hf hr
  subst hf
  unfold readSRC
  rw [hr]
  have hfe := (srcInv_finalize _ true stderrText ⟨h1, h2, h3, h4, h5⟩).2
  simp only [if_pos rfl] at hfe
  simp [hfe]

/-- C7 witness: the stream of one byte with a failing child, under
reads and repeated closes. -/
theorem c7_witness :
    (srcRun (initSRC [7] true (" boom ")) [.read, .read, .close, .close, .read]).finishCount ≤ 1 ∧
    (readSRC (srcRun (initSRC [7] true (" boom ")) [.read, .read, .close, .close, .read])).1 =
      .errored ("vzdump failed: boom") := by
  have h := c7_finalize_once_and_error_priority [7] true (" boom ")
    [.read, .read, .close, .close, .read]
  refine ⟨h.1, ?_⟩
  have h3 := h.2.2 rfl (by decide)
  rw [h3]
  decide

/-- C9: `Close` marks the handle closed, and every `Close` on an
already-closed capture stream or remote read handle returns nil, even
when an earlier finalization produced an error. -/
theorem c9_close_after_first_returns_nil (r : SRC) (r2 : SSHRC) :
    (closeSRC r).2.closed = true ∧
    (r.closed = true → closeSRC r = (none, r)) ∧
    (closeSSHRC r2).2.closed = true ∧
    (r2.closed = true → closeSSHRC r2 = (none, r2)) := by
  refine ⟨?_, ?_, ?_, ?_⟩
  · unfold closeSRC
    by_cases hc : r.closed
    · rw [if_pos hc]; exact hc
    · rw [if_neg hc]
      unfold finalizeSRC
      split <;> rfl
  · intro hc
    unfold closeSRC
    rw [if_pos hc]
  · unfold closeSSHRC
    by_cases hc : r2.closed
    · rw [if_pos hc]; exact hc
    · rw [if_neg hc]
  · intro hc
    unfold closeSSHRC
    rw [if_pos hc]

/-- C9 witness: closed handles carrying a cached error and a failing
wait both return nil from a second Close. -/
theorem c9_witness :
    (closeSRC ⟨[], true, ("e"), true, true, some ("vzdump failed: e"), 1⟩).1 = none ∧
    (closeSSHRC ⟨true, ("e"), true⟩).1 = none := by
  have h := c9_close_after_first_returns_nil
    ⟨[], true, ("e"), true, true, some ("vzdump failed: e"), 1⟩ ⟨true, ("e"), true⟩
  exact ⟨by rw [h.2.1 rfl], by rw [h.2.2.2 rfl]⟩

lemma validateMetadata_none_kind (archive : String) (meta : DumpMetadata)
    (h : validateMetadata archive meta = none) :
    meta.vmType = "qemu" ∨ meta.vmType = "lxc" := by
  unfold validateMetadata at h
  split_ifs at h with h1 h2 h3
  by_cases hq : meta.vmType = "qemu"
  · exact Or.inl hq
  · by_cases hl : meta.vmType = "lxc"
    · exact Or.inr hl
    · exact absurd ⟨hq, hl⟩ h3

/-- C8 counterexample: a stop-command diagnostic that contains
"permission denied" (and not "already stopped") but also the ignorable
phrase "not running" is swallowed: `stopVM` returns success, where the
claim demands an error. -/
theorem c8_counterexample :
    containsSub (toLowerStr ("permission denied (vm not running)")) ("permission denied") = true ∧
    containsSub (toLowerStr ("permission denied (vm not running)")) ("already stopped") = false ∧
    (stopVM (cbStopOut ("permission denied (vm not running)")) ("qemu") 100).1 = none := by
  decide

/-- C8 (amended): when the stop command of a restore fails, a trimmed
diagnostic containing "already stopped" (case-insensitively) makes
`stopVM` succeed and the restore command is invoked; a diagnostic
containing "permission denied" and no phrase of the ignorable family
makes `stopVM` fail, `restoreDump` returns that stop error, and no
restore command is invoked. -/
theorem c8_amended (cb : ClientBehavior) (dumpPath filename : String) (meta : DumpMetadata)
    (hval : validateMetadata filename meta = none) (so se : String)
    (hrun : cb.run (if meta.vmType = "qemu" then ("qm") else ("pct"))
      [("stop"), itoa meta.vmid] = (so, se, false)) :
    (containsSub (toLowerStr (effectiveStopOutput so se)) ("already stopped") = true →
      (restoreDump cb dumpPath filename meta).2.filter isRestoreRun =
        [restoreCallFor meta.vmType meta.vmid dumpPath]) ∧
    (containsSub (toLowerStr (effectiveStopOutput so se)) ("permission denied") = true →
      isIgnorableStopError (effectiveStopOutput so se) = false →
      restoreDump cb dumpPath filename meta =
        (some (.stopFailed meta.vmType meta.vmid (effectiveStopOutput so se)),
         [Action.runCmd (if meta.vmType = "qemu" then ("qm") else ("pct"))
           [("stop"), itoa meta.vmid]])) := by
  have hkind := validateMetadata_none_kind filename meta hval
  rcases hkind with hq | hq <;>
  · rw [hq] at hrun
    simp at hrun
    constructor
    · intro hcon
      have hne : effectiveStopOutput so se ≠ "" := by
        intro h0
        rw [h0] at hcon
        exact absurd hcon (by decide)
      have hig : isIgnorableStopError (effectiveStopOutput so se) = true := by
        unfold isIgnorableStopError
        rw [if_neg hne]
        simp [hcon]
      unfold restoreDump resolveRestoreTarget
      simp only [hval]
      unfold stopVM
      rw [hq]
      simp only [String.reduceEq, reduceIte]
      rw [hrun]
      rw [show (if trimSpace se = "" then trimSpace so else trimSpace se) =
        effectiveStopOutput so se from rfl, hig]
      simp only [Bool.false_eq_true, reduceIte]
      cases hok : (cb.run ("qmrestore") [dumpPath, itoa meta.vmid, ("--force")]).2.2 <;>
        cases hok2 : (cb.run ("pct") [("restore"), itoa meta.vmid, dumpPath, ("--force")]).2.2 <;>
        simp [hok, hok2, isRestoreRun, restoreCallFor, hq]
    · intro hcon hig
      unfold restoreDump resolveRestoreTarget
      simp only [hval]
      unfold stopVM
      rw [hq]
      simp only [String.reduceEq, reduceIte]
      rw [hrun]
      rw [show (if trimSpace se = "" then trimSpace so else trimSpace se) =
        effectiveStopOutput so se from rfl, hig]
      simp [hq]

/-- C8 witness: the amended claim at the concrete diagnostics
"task Already Stopped" (restore proceeds) and "permission denied"
(restore fails without a restore command). -/
theorem c8_witness :
    (restoreDump (cbStopOut ("task Already Stopped")) ("/d") ("vzdump-qemu-100-t.vma")
      sampleMeta).2.filter isRestoreRun = [restoreCallFor ("qemu") 100 ("/d")] ∧
    restoreDump (cbStopOut ("permission denied")) ("/d") ("vzdump-qemu-100-t.vma") sampleMeta =
      (some (.stopFailed ("qemu") 100 ("permission denied")),
       [Action.runCmd ("qm") [("stop"), itoa 100]]) := by
  constructor
  · have h := (c8_amended (cbStopOut ("task Already Stopped")) ("/d") ("vzdump-qemu-100-t.vma")
      sampleMeta (by decide) ("") ("task Already Stopped") (by decide)).1 (by decide)
    exact h.trans (by decide)
  · have h := (c8_amended (cbStopOut ("permission denied")) ("/d") ("vzdump-qemu-100-t.vma")
      sampleMeta (by decide) ("") ("permission denied") (by decide)).2 (by decide) (by decide)
    exact h.trans (by decide)

/-- C4 counterexample: a restore job consisting of one valid sidecar
record and no payload ends with a single successful result for the
sidecar and no error at all — the lone sidecar half is silently
dropped, where the claim demands an error report for it. -/
theorem c4_counterexample :
    exportRun sampleCfg cbAllOk [sampleSidecar] = ([(sampleSidecar, none)], []) := by
  decide

/-- C4 (amended): at end of job every archive still pending — that is,
with only a payload buffered — is reported as a missing-metadata error
for its record, and its staged file is removed when cleanup is enabled;
an archive for which only a valid sidecar arrived is not reported: the
sidecar record receives a successful result at arrival and its decoded
metadata is merely buffered. -/
theorem c4_amended (cfg : Cfg) (pend : List (String × PendingDump))
    (cb : ClientBehavior) (st : ExportState) (record : Rec) (archiveName : String)
    (meta0 : DumpMetadata)
    (hflags : record.hasErr = false ∧ record.isXattr = false ∧ record.isRegular = true)
    (hparse : parseMetadataFilename (pathBase record.pathname) = some archiveName)
    (hfil : cfg.restoreVMID = none)
    (hdec : record.decode = .ok meta0)
    (hval : validateMetadata archiveName meta0 = none)
    (hpend : alGet st.pendingDumps archiveName = none) :
    ((flushPending cfg pend).1 =
      pend.map (fun kv => (kv.2.record, some (.missingMetadata kv.1))) ∧
     (flushPending cfg pend).2 =
      (if cfg.cleanup then pend.map (fun kv => Action.removeFile kv.2.dumpPath) else [])) ∧
    processRecord cfg cb st record =
      (⟨alPut st.metadataByArchive archiveName ({ meta0 with archiveName := archiveName }),
        st.pendingDumps⟩,
       [(record, none)], []) := by
  constructor
  · constructor
    · induction pend with
      | nil => rfl
      | cons kv rest ih =>
        obtain ⟨a, pd⟩ := kv
        simp [flushPending, ih]
    · induction pend with
      | nil => simp [flushPending]
      | cons kv rest ih =>
        obtain ⟨a, pd⟩ := kv
        by_cases hc : cfg.cleanup <;> simp [flushPending, ih, hc]
  · obtain ⟨hf1, hf2, hf3⟩ := hflags
    unfold processRecord
    rw [hf1, hf2, hf3]
    simp only [Bool.false_or, Bool.not_true, Bool.false_eq_true, if_false, hparse]
    simp only [filterSkip, hfil, hdec, hval, hpend]
    rfl

/-- C4 witness: the end-of-job flush over one pending payload and the
arrival of a lone valid sidecar, at concrete values. -/
theorem c4_witness :
    (flushPending sampleCfg [(("a"), ⟨samplePayload, ("/dump/a")⟩)]).1 =
      [(samplePayload, some (.missingMetadata ("a")))] ∧
    (flushPending sampleCfg [(("a"), ⟨samplePayload, ("/dump/a")⟩)]).2 =
      [Action.removeFile ("/dump/a")] ∧
    processRecord sampleCfg cbAllOk ⟨[], []⟩ sampleSidecar =
      (⟨[(("vzdump-qemu-100-t.vma"),
          { vmid := 100, vmType := ("qemu"), archiveName := ("vzdump-qemu-100-t.vma") })], []⟩,
       [(sampleSidecar, none)], []) := by
  have h := c4_amended sampleCfg [(("a"), ⟨samplePayload, ("/dump/a")⟩)] cbAllOk ⟨[], []⟩
    sampleSidecar ("vzdump-qemu-100-t.vma") sampleMeta (by decide) (by decide) (by decide)
    (by decide) (by decide) (by decide)
  exact ⟨h.1.1.trans (by decide), h.1.2.trans (by decide), h.2.trans (by decide)⟩

/-- C10: with a restore machine-identifier filter configured, a payload
record whose basename does not parse as a vzdump filename is processed
exactly as it would be with no filter configured — in particular, under
the usual success conditions it is written to the staging directory and
buffered as a pending dump, not passed through; the filter only passes
through records whose successfully parsed identifier differs from the
configured one. -/
theorem c10_filter_unparseable_payload (cfg : Cfg) (fid : Int)
    (hf : cfg.restoreVMID = some fid) (cb : ClientBehavior) (st : ExportState)
    (r1 r2 : Rec)
    (hm1 : parseMetadataFilename (pathBase r1.pathname) = none)
    (hm2 : parseMetadataFilename (pathBase r2.pathname) = none) :
    (∀ e, parseDumpFilename (pathBase r1.pathname) = .error e →
      processRecord cfg cb st r1 =
        processRecord { cfg with restoreVMID := none } cb st r1) ∧
    (∀ e, parseDumpFilename (pathBase r1.pathname) = .error e →
      r1.hasErr = false → r1.isXattr = false → r1.isRegular = true →
      cb.writeOk (pathJoin cfg.dumpDir (pathBase r1.pathname)) = none →
      r1.closeErr = none →
      alGet st.metadataByArchive (pathBase r1.pathname) = none →
      processRecord cfg cb st r1 =
        (⟨st.metadataByArchive, alPut st.pendingDumps (pathBase r1.pathname)
            ⟨r1, pathJoin cfg.dumpDir (pathBase r1.pathname)⟩⟩,
         [], [Action.writeFile (pathJoin cfg.dumpDir (pathBase r1.pathname))])) ∧
    (∀ kind vmid, parseDumpFilename (pathBase r2.pathname) = .ok (kind, vmid) →
      vmid ≠ fid →
      processRecord cfg cb st r2 = (st, [(r2, none)], [])) := by
  refine ⟨?_, ?_, ?_⟩
  · intro e he
    unfold processRecord
    by_cases hflag : (r1.hasErr || r1.isXattr || !r1.isRegular) = true
    · rw [if_pos hflag, if_pos hflag]
    · rw [if_neg hflag, if_neg hflag]
      simp only [hm1, filterSkip, hf, he]
  · intro e he hf1 hf2 hf3 hw hc hg
    unfold processRecord
    rw [hf1, hf2, hf3]
    simp only [Bool.false_or, Bool.not_true, Bool.false_eq_true, if_false, hm1]
    simp only [filterSkip, hf, he, hw, hc, hg]
    simp
  · intro kind vmid hok hne
    unfold processRecord
    by_cases hflag : (r2.hasErr || r2.isXattr || !r2.isRegular) = true
    · rw [if_pos hflag]
    · rw [if_neg hflag]
      have hskip : filterSkip cfg.restoreVMID (pathBase r2.pathname) = true := by
        simp only [filterSkip, hf, hok]
        simp [hne]
      simp only [hm2, hskip, if_true]

/-- C10 witness: a filter of 200 with an unparseable payload name
(staged and buffered) and a parseable payload of vmid 100 (passed
through untouched). -/
theorem c10_witness :
    processRecord ({ restoreVMID := some 200, cleanup := true, dumpDir := ("/dump") })
        cbAllOk ⟨[], []⟩ oddPayload =
      processRecord ({ restoreVMID := none, cleanup := true, dumpDir := ("/dump") })
        cbAllOk ⟨[], []⟩ oddPayload ∧
    processRecord ({ restoreVMID := some 200, cleanup := true, dumpDir := ("/dump") })
        cbAllOk ⟨[], []⟩ oddPayload =
      (⟨[], [(("archive.bin"), ⟨oddPayload, ("/dump/archive.bin")⟩)]⟩,
       [], [Action.writeFile ("/dump/archive.bin")]) ∧
    processRecord ({ restoreVMID := some 200, cleanup := true, dumpDir := ("/dump") })
        cbAllOk ⟨[], []⟩ samplePayload =
      (⟨[], []⟩, [(samplePayload, none)], []) := by
  have h := c10_filter_unparseable_payload
    ({ restoreVMID := some 200, cleanup := true, dumpDir := ("/dump") }) 200 rfl
    cbAllOk ⟨[], []⟩ oddPayload samplePayload (by decide) (by decide)
  refine ⟨h.1 (.invalidName ("archive.bin")) (by decide), ?_, ?_⟩
  · have h2 := h.2.1 (.invalidName ("archive.bin")) (by decide) rfl rfl rfl (by decide) rfl
      (by decide)
    exact h2.trans (by decide)
  · exact h.2.2 ("qemu") 100 (by decide) (by decide)

lemma stopVM_acts (cb : ClientBehavior) (vt : String) (vmid : Int)
    (hk : vt = "qemu" ∨ vt = "lxc") :
    (stopVM cb vt vmid).2 =
      [Action.runCmd (if vt = "qemu" then ("qm") else ("pct")) [("stop"), itoa vmid]] := by
  rcases hk with hk | hk <;> subst hk <;>
  · unfold stopVM
    simp only [String.reduceEq, reduceIte]
    repeat' split
    all_goals rfl

lemma restoreDump_none_trace (cb : ClientBehavior) (dp fn : String) (meta : DumpMetadata)
    (hval : validateMetadata fn meta = none) (acts : List Action)
    (h : restoreDump cb dp fn meta = (none, acts)) :
    acts.filter isRestoreRun = [restoreCallFor meta.vmType meta.vmid dp] := by
  have hkind := validateMetadata_none_kind fn meta hval
  have hsa := stopVM_acts cb meta.vmType meta.vmid hkind
  rcases hsv : stopVM cb meta.vmType meta.vmid with ⟨serr, sacts⟩
  rw [hsv] at hsa
  simp only at hsa
  unfold restoreDump resolveRestoreTarget at h
  simp only [hval, hsv] at h
  rcases hkind with hk | hk <;> rw [hk] at h hsa ⊢ <;>
  · simp only [String.reduceEq, reduceIte] at h hsa ⊢
    cases serr with
    | some e => exact absurd (congrArg Prod.fst h) (by simp)
    | none =>
      split at h
      next e a2 heq => simp at heq
      next a2 heq =>
        have hacts2 : a2 = sacts := by
          have := congrArg Prod.snd heq
          simpa using this.symm
        subst hacts2
        split at h
        · have hacts := congrArg Prod.snd h
          simp only at hacts
          rw [← hacts, hsa]
          simp [isRestoreRun, restoreCallFor]
        · exact absurd (congrArg Prod.fst h) (by simp)

lemma validateMetadata_set_name (archive : String) (meta0 : DumpMetadata)
    (hval : validateMetadata archive meta0 = none) :
    validateMetadata archive ({ meta0 with archiveName := archive }) = none := by
  unfold validateMetadata at hval ⊢
  split_ifs at hval with h1 h2 h3
  simp [h2, h3]

/-- C1: for a restore job in which exactly one valid sidecar and one
payload arrive for the same archive — in either order, with the client
effects succeeding and no vmid filter — the Export loop emits a
successful result for both records, the action trace is exactly one
staging write, the restoreDump actions and the optional cleanup
removal, and the restoreDump actions contain exactly one restore
command invocation, built from the decoded sidecar's machine kind and
identifier. -/
theorem c1_correlator_exactly_one_restore
    (cfg : Cfg) (cb : ClientBehavior) (s p : Rec) (archive : String)
    (meta0 : DumpMetadata) (rdActs : List Action)
    (hfil : cfg.restoreVMID = none)
    (hsf : s.hasErr = false ∧ s.isXattr = false ∧ s.isRegular = true)
    (hpf : p.hasErr = false ∧ p.isXattr = false ∧ p.isRegular = true)
    (hs : parseMetadataFilename (pathBase s.pathname) = some archive)
    (hp : pathBase p.pathname = archive)
    (hpm : parseMetadataFilename archive = none)
    (hdec : s.decode = .ok meta0)
    (hval : validateMetadata archive meta0 = none)
    (hclose : p.closeErr = none)
    (hwrite : cb.writeOk (pathJoin cfg.dumpDir archive) = none)
    (hrd : restoreDump cb (pathJoin cfg.dumpDir archive) archive
      ({ meta0 with archiveName := archive }) = (none, rdActs))
    (hrem : cfg.cleanup = true → cb.removeOk (pathJoin cfg.dumpDir archive) = none) :
    exportRun cfg cb [s, p] =
      ([(s, none), (p, none)],
       Action.writeFile (pathJoin cfg.dumpDir archive) ::
         (rdActs ++ (if cfg.cleanup then
           [Action.removeFile (pathJoin cfg.dumpDir archive)] else []))) ∧
    exportRun cfg cb [p, s] =
      ([(p, none), (s, none)],
       Action.writeFile (pathJoin cfg.dumpDir archive) ::
         (rdActs ++ (if cfg.cleanup then
           [Action.removeFile (pathJoin cfg.dumpDir archive)] else []))) ∧
    rdActs.filter isRestoreRun =
      [restoreCallFor meta0.vmType meta0.vmid (pathJoin cfg.dumpDir archive)] := by
  obtain ⟨hs1, hs2, hs3⟩ := hsf
  obtain ⟨hp1, hp2, hp3⟩ := hpf
  have step1 : processRecord cfg cb ⟨[], []⟩ s =
      (⟨[(archive, { meta0 with archiveName := archive })], []⟩, [(s, none)], []) := by
    unfold processRecord
    rw [hs1, hs2, hs3]
    simp only [Bool.false_or, Bool.not_true, Bool.false_eq_true, if_false, hs]
    simp only [filterSkip, hfil, hdec, hval]
    rfl
  have step2 : processRecord cfg cb
      ⟨[(archive, { meta0 with archiveName := archive })], []⟩ p =
      (⟨[], []⟩, [(p, none)],
       Action.writeFile (pathJoin cfg.dumpDir archive) ::
         (rdActs ++ (if cfg.cleanup then
           [Action.removeFile (pathJoin cfg.dumpDir archive)] else []))) := by
    unfold processRecord
    rw [hp1, hp2, hp3]
    simp only [Bool.false_or, Bool.not_true, Bool.false_eq_true, if_false, hp, hpm]
    simp only [filterSkip, hfil, hwrite, hclose]
    simp only [alGet, if_pos]
    simp only [hrd]
    by_cases hcl : cfg.cleanup
    · rw [hcl] at hrem ⊢
      simp only [hrem rfl, if_true]
      simp [alDel]
    · simp only [hcl, Bool.false_eq_true, if_false]
      simp [alDel]
  have step3 : processRecord cfg cb ⟨[], []⟩ p =
      (⟨[], [(archive, ⟨p, pathJoin cfg.dumpDir archive⟩)]⟩, [],
       [Action.writeFile (pathJoin cfg.dumpDir archive)]) := by
    unfold processRecord
    rw [hp1, hp2, hp3]
    simp only [Bool.false_or, Bool.not_true, Bool.false_eq_true, if_false, hp, hpm]
    simp only [filterSkip, hfil, hwrite, hclose]
    rfl
  have step4 : processRecord cfg cb
      ⟨[], [(archive, ⟨p, pathJoin cfg.dumpDir archive⟩)]⟩ s =
      (⟨[], []⟩, [(p, none), (s, none)],
       rdActs ++ (if cfg.cleanup then
         [Action.removeFile (pathJoin cfg.dumpDir archive)] else [])) := by
    unfold processRecord
    rw [hs1, hs2, hs3]
    simp only [Bool.false_or, Bool.not_true, Bool.false_eq_true, if_false, hs]
    simp only [filterSkip, hfil, hdec, hval]
    simp only [alGet, if_pos]
    simp only [hrd]
    by_cases hcl : cfg.cleanup
    · rw [hcl] at hrem ⊢
      simp only [hrem rfl, if_true]
      simp [alDel, alPut]
    · simp only [hcl, Bool.false_eq_true, if_false]
      simp [alDel, alPut]
  refine ⟨?_, ?_, ?_⟩
  · unfold exportRun exportLoop
    rw [step1]
    simp only
    unfold exportLoop
    rw [step2]
    simp [flushPending, exportLoop]
  · unfold exportRun exportLoop
    rw [step3]
    simp only
    unfold exportLoop
    rw [step4]
    simp [flushPending, exportLoop]
  · exact restoreDump_none_trace cb (pathJoin cfg.dumpDir archive) archive
      ({ meta0 with archiveName := archive })
      (validateMetadata_set_name archive meta0 hval) rdActs hrd

/-- C1 witness: the concrete pair for archive `vzdump-qemu-100-t.vma`
in both arrival orders under an all-success client. -/
theorem c1_witness :
    exportRun sampleCfg cbAllOk [sampleSidecar, samplePayload] =
      ([(sampleSidecar, none), (samplePayload, none)],
       [Action.writeFile ("/dump/vzdump-qemu-100-t.vma"),
        Action.runCmd ("qm") [("stop"), ("100")],
        Action.runCmd ("qmrestore") [("/dump/vzdump-qemu-100-t.vma"), ("100"), ("--force")],
        Action.removeFile ("/dump/vzdump-qemu-100-t.vma")]) ∧
    exportRun sampleCfg cbAllOk [samplePayload, sampleSidecar] =
      ([(samplePayload, none), (sampleSidecar, none)],
       [Action.writeFile ("/dump/vzdump-qemu-100-t.vma"),
        Action.runCmd ("qm") [("stop"), ("100")],
        Action.runCmd ("qmrestore") [("/dump/vzdump-qemu-100-t.vma"), ("100"), ("--force")],
        Action.removeFile ("/dump/vzdump-qemu-100-t.vma")]) ∧
    ([Action.runCmd ("qm") [("stop"), ("100")],
      Action.runCmd ("qmrestore") [("/dump/vzdump-qemu-100-t.vma"), ("100"), ("--force")]].filter
        isRestoreRun =
      [Action.runCmd ("qmrestore") [("/dump/vzdump-qemu-100-t.vma"), ("100"), ("--force")]]) := by
  have h := c1_correlator_exactly_one_restore sampleCfg cbAllOk sampleSidecar samplePayload
    ("vzdump-qemu-100-t.vma") sampleMeta
    [Action.runCmd ("qm") [("stop"), ("100")],
     Action.runCmd ("qmrestore") [("/dump/vzdump-qemu-100-t.vma"), ("100"), ("--force")]]
    rfl (by decide) (by decide) (by decide) (by decide) (by decide) (by decide) (by decide)
    (by decide) rfl (by decide) (fun _ => rfl)
  exact ⟨h.1.trans (by decide), h.2.1.trans (by decide), h.2.2.trans (by decide)⟩

end PlakarProxmox
